import Mathlib

/-!
Verification of the tytools device monitor / registry specification.

The Monitor core (event handling, drain, start) is declared in
src/include/tyqt/monitor.hpp; its implementation file is not part of the
sources at hand, so the registry operations below are modelled from the
specification text.  The MainWindow slots (firmware path editing, monitor
line entry, board defaults) are embedded directly from
src/tyqt/main_window.cc.
-/

/-- Modelled from the spec: the kind of a raw platform hotplug event
(`ty_monitor_event` in the source header): Added, Changed or Removed. -/
inductive EventKind where
  | added
  | changed
  | removed
deriving DecidableEq, Repr

/-- Modelled from the spec: a raw platform event `{kind, handle, metadata}`
delivered by the Platform Event Source.  Handles and metadata are opaque,
modelled as naturals. -/
structure Event where
  kind : EventKind
  handle : Nat
  info : Nat
deriving DecidableEq, Repr

/-- Modelled from the spec: a Device in the canonical list, identified by its
opaque platform handle, with its mutable payload (property map, capability
set) collapsed into one opaque `info` field. -/
structure Device where
  handle : Nat
  info : Nat
deriving DecidableEq, Repr

/-- Modelled from the spec: the Registry state, an ordered sequence of
Devices (the `boards_` vector of `Monitor`) plus a lookup structure keyed
by platform handle for event correlation. -/
structure Registry where
  seq : List Device
  lookup : List Nat
deriving DecidableEq, Repr

/-- Modelled from the spec: a row-level notification sent to the Consumer
Adapter: `rowInserted(index)` (with the handle of the new device),
`rowUpdated(index)`, `rowRemoved(index)`. -/
inductive Notif where
  | insert (index : Nat) (handle : Nat)
  | update (index : Nat)
  | remove (index : Nat)
deriving DecidableEq, Repr

/-- Modelled from the spec: protocol-anomaly reports emitted while applying
events; never fatal to the registry. -/
inductive RegError where
  | DuplicateDeviceError
  | UnknownDeviceError
deriving DecidableEq, Repr

/-- Modelled from the spec: `Monitor::findBoardIterator`, a linear scan of
the device sequence for the first device with the given platform handle,
returning its row index. -/
def findHandleIndex : List Device → Nat → Option Nat
  | [], _ => none
  | d :: ds, h =>
      if d.handle = h then some 0
      else (findHandleIndex ds h).map (· + 1)

/-- Modelled from the spec: the event handling algorithm of `drainAndApply`
(`Monitor::handleEvent` dispatching to `handleAddedEvent`,
`handleChangedEvent`, `removeBoardItem`):
Added appends a new Device and emits row-inserted at the new last row, or
reports `DuplicateDeviceError` if the handle is already tracked;
Changed updates the device in place and emits row-updated, or reports
`UnknownDeviceError` if untracked; Removed erases the device from sequence
and lookup and emits row-removed, or reports `UnknownDeviceError`.
Returns the new registry, the notifications and the error reports. -/
def applyEvent (reg : Registry) (e : Event) : Registry × List Notif × List RegError :=
  match e.kind with
  | EventKind.added =>
      match findHandleIndex reg.seq e.handle with
      | some _ => (reg, [], [RegError.DuplicateDeviceError])
      | none =>
          ({ seq := reg.seq ++ [⟨e.handle, e.info⟩],
             lookup := reg.lookup ++ [e.handle] },
           [Notif.insert reg.seq.length e.handle], [])
  | EventKind.changed =>
      match findHandleIndex reg.seq e.handle with
      | none => (reg, [], [RegError.UnknownDeviceError])
      | some i =>
          ({ reg with seq := reg.seq.set i ⟨e.handle, e.info⟩ },
           [Notif.update i], [])
  | EventKind.removed =>
      match findHandleIndex reg.seq e.handle with
      | none => (reg, [], [RegError.UnknownDeviceError])
      | some i =>
          ({ seq := reg.seq.eraseIdx i,
             lookup := reg.lookup.erase e.handle },
           [Notif.remove i], [])

/-- Modelled from the spec: `drainAndApply` pops all queued raw events,
applies them in order to the canonical sequence and collects the row
notifications and error reports, returning also the count applied (the
number of row mutations performed). -/
def drainAndApply : Registry → List Event → Registry × List Notif × List RegError × Nat
  | reg, [] => (reg, [], [], 0)
  | reg, e :: es =>
      let step := applyEvent reg e
      let rest := drainAndApply step.1 es
      (rest.1, step.2.1 ++ rest.2.1, step.2.2 ++ rest.2.2.1,
       rest.2.2.2 + step.2.1.length)

/-- Modelled from the spec: `deviceCount()` / `Monitor::boardCount`, the
number of devices in the canonical sequence. -/
def deviceCount (reg : Registry) : Nat :=
  reg.seq.length

/-- Number of row-inserted notifications in a notification list: the number
of Added events that were recognized and applied. -/
def countInserts (ns : List Notif) : Nat :=
  ns.countP fun n => match n with | Notif.insert _ _ => true | _ => false

/-- Number of row-removed notifications in a notification list: the number
of Removed events that were recognized and applied. -/
def countRemoves (ns : List Notif) : Nat :=
  ns.countP fun n => match n with | Notif.remove _ => true | _ => false

/-- Registry invariant from the spec: no two live devices share a platform
handle, and the lookup structure holds exactly the handles of the live
devices in row order. -/
def RegInvariant (reg : Registry) : Prop :=
  (reg.seq.map Device.handle).Nodup ∧ reg.lookup = reg.seq.map Device.handle

/-- A handle is found by the linear scan exactly when it occurs among the
handles of the sequence. -/
lemma findHandleIndex_eq_none (seq : List Device) (h : Nat) :
    findHandleIndex seq h = none ↔ h ∉ seq.map Device.handle := by
  induction seq with
  | nil => simp [findHandleIndex]
  | cons d ds ih =>
      by_cases hd : d.handle = h
      · simp [findHandleIndex, hd]
      · cases hf : findHandleIndex ds h with
        | none =>
            have hmem := ih.mp hf
            have hne : ¬h = d.handle := fun he => hd he.symm
            simp [findHandleIndex, hd, hf, hmem, hne]
        | some i =>
            have hmem : h ∈ List.map Device.handle ds := by
              by_contra hc
              rw [ih.mpr hc] at hf
              cases hf
            simp [findHandleIndex, hd, hf, hmem]

/-- A found index points at a device carrying the sought handle. -/
lemma findHandleIndex_get (seq : List Device) (h : Nat) :
    ∀ i, findHandleIndex seq h = some i →
      ∃ d, seq.get? i = some d ∧ d.handle = h := by
  induction seq with
  | nil => intro i hf; simp [findHandleIndex] at hf
  | cons d ds ih =>
      intro i hf
      rw [findHandleIndex] at hf
      by_cases hd : d.handle = h
      · rw [if_pos hd] at hf
        cases hf
        exact ⟨d, rfl, hd⟩
      · rw [if_neg hd] at hf
        cases hj : findHandleIndex ds h with
        | none => rw [hj] at hf; cases hf
        | some j =>
            rw [hj] at hf
            simp only [Option.map_some', Option.some.injEq] at hf
            subst hf
            obtain ⟨e, he, hh⟩ := ih j hj
            exact ⟨e, he, hh⟩

/-- A found index is a valid row index of the sequence. -/
lemma findHandleIndex_lt (seq : List Device) (h : Nat) :
    ∀ i, findHandleIndex seq h = some i → i < seq.length := by
  induction seq with
  | nil => intro i hf; simp [findHandleIndex] at hf
  | cons d ds ih =>
      intro i hf
      rw [findHandleIndex] at hf
      by_cases hd : d.handle = h
      · rw [if_pos hd] at hf
        cases hf
        simp
      · rw [if_neg hd] at hf
        cases hj : findHandleIndex ds h with
        | none => rw [hj] at hf; cases hf
        | some j =>
            rw [hj] at hf
            simp only [Option.map_some', Option.some.injEq] at hf
            subst hf
            exact Nat.succ_lt_succ (ih j hj)

/-- Updating in place the device found at a handle does not change the
sequence of handles. -/
lemma map_set_of_find (seq : List Device) (h info : Nat) :
    ∀ i, findHandleIndex seq h = some i →
      (seq.set i ⟨h, info⟩).map Device.handle = seq.map Device.handle := by
  induction seq with
  | nil => intro i hf; simp [findHandleIndex] at hf
  | cons d ds ih =>
      intro i hf
      rw [findHandleIndex] at hf
      by_cases hd : d.handle = h
      · rw [if_pos hd] at hf
        cases hf
        simp [hd]
      · rw [if_neg hd] at hf
        cases hj : findHandleIndex ds h with
        | none => rw [hj] at hf; cases hf
        | some j =>
            rw [hj] at hf
            simp only [Option.map_some', Option.some.injEq] at hf
            subst hf
            have hset : ((d :: ds).set (j + 1) ⟨h, info⟩) = d :: ds.set j ⟨h, info⟩ := rfl
            rw [hset, List.map_cons, List.map_cons, ih j hj]

/-- Erasing the row found at a handle erases exactly the first occurrence of
that handle from the handle sequence. -/
lemma map_erase_of_find (seq : List Device) (h : Nat) :
    ∀ i, findHandleIndex seq h = some i →
      (seq.map Device.handle).erase h = (seq.eraseIdx i).map Device.handle := by
  induction seq with
  | nil => intro i hf; simp [findHandleIndex] at hf
  | cons d ds ih =>
      intro i hf
      rw [findHandleIndex] at hf
      by_cases hd : d.handle = h
      · rw [if_pos hd] at hf
        cases hf
        simp only [List.map_cons, hd, List.eraseIdx]
        exact List.erase_cons_head h (ds.map Device.handle)
      · rw [if_neg hd] at hf
        cases hj : findHandleIndex ds h with
        | none => rw [hj] at hf; cases hf
        | some j =>
            rw [hj] at hf
            simp only [Option.map_some', Option.some.injEq] at hf
            subst hf
            have herase : ((d.handle :: ds.map Device.handle).erase h)
                = d.handle :: (ds.map Device.handle).erase h := by
              rw [List.erase_cons_tail]
              simpa using hd
            simp only [List.map_cons, herase, List.eraseIdx, ih j hj]

/-- Applying one event preserves the registry invariant: handles stay
pairwise distinct and the lookup stays equal to the live handle sequence. -/
lemma applyEvent_invariant (reg : Registry) (e : Event)
    (hinv : RegInvariant reg) : RegInvariant (applyEvent reg e).1 := by
  obtain ⟨hnd, hlk⟩ := hinv
  obtain ⟨k, h, info⟩ := e
  cases k with
  | added =>
      cases hf : findHandleIndex reg.seq h with
      | some i => simpa [applyEvent, hf] using ⟨hnd, hlk⟩
      | none =>
          have hmem : h ∉ reg.seq.map Device.handle :=
            (findHandleIndex_eq_none reg.seq h).mp hf
          constructor
          · simp only [applyEvent, hf, List.map_append, List.map_cons, List.map_nil]
            exact hnd.append (List.nodup_singleton h)
              (List.disjoint_singleton.mpr hmem)
          · simp only [applyEvent, hf, List.map_append, List.map_cons, List.map_nil, hlk]
  | changed =>
      cases hf : findHandleIndex reg.seq h with
      | none => simpa [applyEvent, hf] using ⟨hnd, hlk⟩
      | some i =>
          constructor
          · simpa [applyEvent, hf, map_set_of_find reg.seq h info i hf] using hnd
          · simpa [applyEvent, hf, map_set_of_find reg.seq h info i hf] using hlk
  | removed =>
      cases hf : findHandleIndex reg.seq h with
      | none => simpa [applyEvent, hf] using ⟨hnd, hlk⟩
      | some i =>
          constructor
          · simpa [applyEvent, hf, ← map_erase_of_find reg.seq h i hf] using hnd.erase h
          · simp only [applyEvent, hf, hlk, map_erase_of_find reg.seq h i hf]

/-- Applying one event changes the sequence length by exactly the balance of
row-inserted and row-removed notifications it emits. -/
lemma applyEvent_length_eq (reg : Registry) (e : Event) :
    (applyEvent reg e).1.seq.length + countRemoves (applyEvent reg e).2.1
      = reg.seq.length + countInserts (applyEvent reg e).2.1 := by
  obtain ⟨k, h, info⟩ := e
  cases k with
  | added =>
      cases hf : findHandleIndex reg.seq h with
      | some i => simp [applyEvent, hf, countInserts, countRemoves]
      | none => simp [applyEvent, hf, countInserts, countRemoves]
  | changed =>
      cases hf : findHandleIndex reg.seq h with
      | none => simp [applyEvent, hf, countInserts, countRemoves]
      | some i => simp [applyEvent, hf, countInserts, countRemoves]
  | removed =>
      cases hf : findHandleIndex reg.seq h with
      | none => simp [applyEvent, hf, countInserts, countRemoves]
      | some i =>
          have hlt : i < reg.seq.length := findHandleIndex_lt reg.seq h i hf
          have := List.length_eraseIdx_add_one hlt
          simp [applyEvent, hf, countInserts, countRemoves, this]

/-- Draining a queue preserves the registry invariant. -/
lemma drainAndApply_invariant (es : List Event) :
    ∀ reg, RegInvariant reg → RegInvariant (drainAndApply reg es).1 := by
  induction es with
  | nil => intro reg hinv; exact hinv
  | cons e es ih =>
      intro reg hinv
      exact ih (applyEvent reg e).1 (applyEvent_invariant reg e hinv)

/-- Draining a queue changes the sequence length by exactly the balance of
row-inserted and row-removed notifications. -/
lemma drainAndApply_length_eq (es : List Event) :
    ∀ reg,
      (drainAndApply reg es).1.seq.length
          + countRemoves (drainAndApply reg es).2.1
        = reg.seq.length + countInserts (drainAndApply reg es).2.1 := by
  induction es with
  | nil => intro reg; simp [drainAndApply, countInserts, countRemoves]
  | cons e es ih =>
      intro reg
      have h1 := applyEvent_length_eq reg e
      have h2 := ih (applyEvent reg e).1
      simp only [drainAndApply, countInserts, countRemoves, List.countP_append] at *
      omega

/-- Claim C3: applying an Added event whose handle is already tracked in the
registry reports DuplicateDeviceError, skips the event, and leaves the
device sequence and the lookup structure unchanged. -/
theorem added_duplicate_rejected (reg : Registry) (h info : Nat)
    (htr : h ∈ reg.seq.map Device.handle) :
    applyEvent reg ⟨EventKind.added, h, info⟩
      = (reg, [], [RegError.DuplicateDeviceError]) := by
  cases hf : findHandleIndex reg.seq h with
  | none => exact absurd ((findHandleIndex_eq_none reg.seq h).mp hf) (by simp [htr])
  | some i => simp [applyEvent, hf]

/-- Witness for claim C3 at a concrete registry already holding handle 5. -/
theorem added_duplicate_rejected_witness :
    applyEvent ⟨[⟨5, 0⟩], [5]⟩ ⟨EventKind.added, 5, 9⟩
      = (⟨[⟨5, 0⟩], [5]⟩, [], [RegError.DuplicateDeviceError]) :=
  added_duplicate_rejected ⟨[⟨5, 0⟩], [5]⟩ 5 9 (by decide)

/-- Claim C4: applying a Changed or a Removed event whose handle is not
tracked reports UnknownDeviceError, skips the event, and leaves the device
sequence exactly as it was (no row mutation and no notification). -/
theorem changed_removed_unknown_rejected (reg : Registry) (h info : Nat)
    (hun : h ∉ reg.seq.map Device.handle) :
    applyEvent reg ⟨EventKind.changed, h, info⟩
        = (reg, [], [RegError.UnknownDeviceError])
    ∧ applyEvent reg ⟨EventKind.removed, h, info⟩
        = (reg, [], [RegError.UnknownDeviceError]) := by
  have hf : findHandleIndex reg.seq h = none :=
    (findHandleIndex_eq_none reg.seq h).mpr hun
  exact ⟨by simp [applyEvent, hf], by simp [applyEvent, hf]⟩

/-- Witness for claim C4 at a concrete registry not tracking handle 7. -/
theorem changed_removed_unknown_rejected_witness :
    applyEvent ⟨[⟨5, 0⟩], [5]⟩ ⟨EventKind.changed, 7, 1⟩
        = (⟨[⟨5, 0⟩], [5]⟩, [], [RegError.UnknownDeviceError])
    ∧ applyEvent ⟨[⟨5, 0⟩], [5]⟩ ⟨EventKind.removed, 7, 1⟩
        = (⟨[⟨5, 0⟩], [5]⟩, [], [RegError.UnknownDeviceError]) :=
  changed_removed_unknown_rejected ⟨[⟨5, 0⟩], [5]⟩ 7 1 (by decide)

/-- Claim C2: for every sequence of events with pairwise distinct handles,
after drainAndApply from the empty registry, deviceCount() balances the
recognized (applied) Added events against the recognized Removed events —
stated in addition form: deviceCount plus the number of row-removed
notifications equals the number of row-inserted notifications — and the
lookup structure contains exactly the handles of the live devices. -/
theorem drain_count_and_lookup (es : List Event)
    (hu : (es.map Event.handle).Nodup) :
    deviceCount (drainAndApply ⟨[], []⟩ es).1
        + countRemoves (drainAndApply ⟨[], []⟩ es).2.1
      = countInserts (drainAndApply ⟨[], []⟩ es).2.1
    ∧ (drainAndApply ⟨[], []⟩ es).1.lookup
      = (drainAndApply ⟨[], []⟩ es).1.seq.map Device.handle := by
  constructor
  · have hlen := drainAndApply_length_eq es ⟨[], []⟩
    simpa [deviceCount] using hlen
  · exact (drainAndApply_invariant es ⟨[], []⟩ ⟨List.nodup_nil, rfl⟩).2

/-- Witness for claim C2 on the concrete queue [Added(0), Added(1)]. -/
theorem drain_count_and_lookup_witness :
    deviceCount (drainAndApply ⟨[], []⟩
          [⟨EventKind.added, 0, 0⟩, ⟨EventKind.added, 1, 0⟩]).1
        + countRemoves (drainAndApply ⟨[], []⟩
          [⟨EventKind.added, 0, 0⟩, ⟨EventKind.added, 1, 0⟩]).2.1
      = countInserts (drainAndApply ⟨[], []⟩
          [⟨EventKind.added, 0, 0⟩, ⟨EventKind.added, 1, 0⟩]).2.1
    ∧ (drainAndApply ⟨[], []⟩
          [⟨EventKind.added, 0, 0⟩, ⟨EventKind.added, 1, 0⟩]).1.lookup
      = (drainAndApply ⟨[], []⟩
          [⟨EventKind.added, 0, 0⟩, ⟨EventKind.added, 1, 0⟩]).1.seq.map Device.handle :=
  drain_count_and_lookup [⟨EventKind.added, 0, 0⟩, ⟨EventKind.added, 1, 0⟩]
    (by decide)

/-- Claim C5: under the registry invariant, applying one event (as each step
of drainAndApply does) preserves the invariant (new devices appended in row
order, no two live devices share a handle, lookup exact); each event is
paired with exactly one row notification when applied, and with exactly one
error report and an untouched registry when skipped; a row-inserted
notification carries the index of the appended device, its actual position
in the sequence right after the call; a row-removed notification carries
the row the erased device occupied, the exact row removed from the
sequence. -/
theorem applyEvent_row_invariants (reg : Registry) (e : Event)
    (hinv : RegInvariant reg) :
    RegInvariant (applyEvent reg e).1
    ∧ ((applyEvent reg e).2.1.length = 1 ∧ (applyEvent reg e).2.2 = []
       ∨ ((applyEvent reg e).2.1 = [] ∧ (applyEvent reg e).2.2.length = 1
          ∧ (applyEvent reg e).1 = reg))
    ∧ (∀ i h, Notif.insert i h ∈ (applyEvent reg e).2.1 →
        (applyEvent reg e).1.seq.map Device.handle
            = reg.seq.map Device.handle ++ [h]
        ∧ i = reg.seq.length
        ∧ ((applyEvent reg e).1.seq.map Device.handle).get? i = some h)
    ∧ (∀ i, Notif.remove i ∈ (applyEvent reg e).2.1 →
        (∃ d, reg.seq.get? i = some d ∧ d.handle = e.handle)
        ∧ (applyEvent reg e).1.seq = reg.seq.eraseIdx i)
    ∧ (∀ es, RegInvariant (drainAndApply reg es).1) := by
  refine ⟨applyEvent_invariant reg e hinv, ?_, ?_, ?_,
    fun es => drainAndApply_invariant es reg hinv⟩
  · obtain ⟨k, h, info⟩ := e
    cases k <;> cases hf : findHandleIndex reg.seq h <;> simp [applyEvent, hf]
  · obtain ⟨k, h, info⟩ := e
    intro i h2 hmem
    cases k with
    | added =>
        cases hf : findHandleIndex reg.seq h with
        | some j => simp [applyEvent, hf] at hmem
        | none =>
            simp only [applyEvent, hf, List.mem_singleton, Notif.insert.injEq] at hmem
            obtain ⟨hi, hh⟩ := hmem
            subst hi
            subst hh
            have hmapeq : (applyEvent reg ⟨EventKind.added, h2, info⟩).1.seq.map Device.handle
                = reg.seq.map Device.handle ++ [h2] := by
              simp [applyEvent, hf]
            refine ⟨hmapeq, rfl, ?_⟩
            rw [hmapeq]
            have hlen : reg.seq.length = (reg.seq.map Device.handle).length := by
              simp
            rw [hlen]
            exact List.get?_concat_length _ _
    | changed =>
        cases hf : findHandleIndex reg.seq h with
        | none => simp [applyEvent, hf] at hmem
        | some j => simp [applyEvent, hf] at hmem
    | removed =>
        cases hf : findHandleIndex reg.seq h with
        | none => simp [applyEvent, hf] at hmem
        | some j => simp [applyEvent, hf] at hmem
  · obtain ⟨k, h, info⟩ := e
    intro i hmem
    cases k with
    | added =>
        cases hf : findHandleIndex reg.seq h with
        | some j => simp [applyEvent, hf] at hmem
        | none => simp [applyEvent, hf] at hmem
    | changed =>
        cases hf : findHandleIndex reg.seq h with
        | none => simp [applyEvent, hf] at hmem
        | some j => simp [applyEvent, hf] at hmem
    | removed =>
        cases hf : findHandleIndex reg.seq h with
        | none => simp [applyEvent, hf] at hmem
        | some j =>
            simp only [applyEvent, hf, List.mem_singleton, Notif.remove.injEq] at hmem
            subst hmem
            constructor
            · obtain ⟨d, hd, hh⟩ := findHandleIndex_get reg.seq h i hf
              exact ⟨d, hd, hh⟩
            · simp [applyEvent, hf]

/-- Witness for claim C5: one Added event applied to the empty registry. -/
theorem applyEvent_row_invariants_witness :
    RegInvariant (applyEvent ⟨[], []⟩ ⟨EventKind.added, 4, 0⟩).1 :=
  (applyEvent_row_invariants ⟨[], []⟩ ⟨EventKind.added, 4, 0⟩
    ⟨List.nodup_nil, rfl⟩).1

/-- Claim C1: for the event sequence
[Added(A), Added(B), Changed(A), Removed(A), Added(C)] applied by
drainAndApply from the empty registry (with A = 0, B = 1, C = 2), the final
device sequence is exactly [B, C] and the notifications are, in order,
insert(0,A), insert(1,B), update(0), remove(0), insert(1,C). -/
theorem drain_scenario_added_changed_removed :
    drainAndApply ⟨[], []⟩
      [⟨EventKind.added, 0, 10⟩, ⟨EventKind.added, 1, 11⟩,
       ⟨EventKind.changed, 0, 12⟩, ⟨EventKind.removed, 0, 0⟩,
       ⟨EventKind.added, 2, 13⟩]
      = (⟨[⟨1, 11⟩, ⟨2, 13⟩], [1, 2]⟩,
         [Notif.insert 0 0, Notif.insert 1 1, Notif.update 0,
          Notif.remove 0, Notif.insert 1 2],
         [], 5) := by
  decide

/-- Claim C6: draining an empty pending event queue applies zero mutations
to the device sequence, emits zero notifications (and zero error reports),
and returns a count of zero. -/
theorem drain_empty_queue_noop (reg : Registry) :
    drainAndApply reg [] = (reg, [], [], 0) := rfl

/-- Modelled from the spec: errors `start` can fail with. -/
inductive StartError where
  | AlreadyStarted
  | PlatformInitError
deriving DecidableEq, Repr

/-- Modelled from the spec: the lifecycle state of the Monitor relevant to
`start`: the `started_` flag of the header, and the number of background
detection threads spawned so far. -/
structure MonitorState where
  started : Bool
  threads : Nat
deriving DecidableEq, Repr

/-- Modelled from the spec: `Monitor::start` — fails with AlreadyStarted if
called while already started, fails with PlatformInitError when the
Platform Event Source cannot initialize (`platformOk = false`); otherwise
spawns the background detection thread and marks the registry started. -/
def MonitorState.start (st : MonitorState) (platformOk : Bool) :
    MonitorState × Option StartError :=
  if st.started then (st, some StartError.AlreadyStarted)
  else if platformOk then
    ({ started := true, threads := st.threads + 1 }, none)
  else (st, some StartError.PlatformInitError)

/-- Claim C7: calling start while already started fails with AlreadyStarted
and spawns no second detection thread; start fails with PlatformInitError
when the Platform Event Source cannot initialize; in every failure case the
state is unchanged, so the registry does not newly become operational. -/
theorem start_error_cases (st : MonitorState) (platformOk : Bool) :
    (st.started = true →
      st.start platformOk = (st, some StartError.AlreadyStarted))
    ∧ (st.started = false → platformOk = false →
      st.start platformOk = (st, some StartError.PlatformInitError))
    ∧ (∀ err, (st.start platformOk).2 = some err →
      (st.start platformOk).1 = st) := by
  refine ⟨?_, ?_, ?_⟩
  · intro hs
    simp [MonitorState.start, hs]
  · intro hs hp
    simp [MonitorState.start, hs, hp]
  · intro err herr
    by_cases hs : st.started
    · simp [MonitorState.start, hs]
    · by_cases hp : platformOk
      · simp [MonitorState.start, hs, hp] at herr
      · simp [MonitorState.start, hs, hp]

/-- Witness for claim C7: a second start on a started monitor, and a failed
platform initialization on a stopped monitor. -/
theorem start_error_cases_witness :
    MonitorState.start ⟨true, 1⟩ true
        = (⟨true, 1⟩, some StartError.AlreadyStarted)
    ∧ MonitorState.start ⟨false, 0⟩ false
        = (⟨false, 0⟩, some StartError.PlatformInitError) :=
  ⟨(start_error_cases ⟨true, 1⟩ true).1 rfl,
   (start_error_cases ⟨false, 0⟩ false).2.1 rfl rfl⟩

/-- A Board as seen by the MainWindow slots of src/tyqt/main_window.cc: its
firmware path property, its "resetAfter" property, the text of its serial
document, and the serial data sent to it so far. -/
structure Board where
  firmware : String
  resetAfter : Bool
  serialDocument : String
  sent : List String
deriving DecidableEq, Repr

/-- MainWindow::on_firmwarePath_editingFinished from src/tyqt/main_window.cc.
Returns early when no board is current.  For a non-empty field text the
filesystem's canonical path resolution (QFileInfo::canonicalFilePath,
returning the empty string when the path does not resolve) is passed in as
the oracle `canonical`; an unresolvable path reports an error (second
component true) and leaves the board alone, a resolvable one stores the
canonical path; an empty field text stores the empty string. -/
def on_firmwarePath_editingFinished (canonical : String → String)
    (current : Option Board) (text : String) : Option Board × Bool :=
  match current with
  | none => (none, false)
  | some b =>
      if text = "" then
        (some { b with firmware := "" }, false)
      else
        let firmware := canonical text
        if firmware = "" then (some b, true)
        else (some { b with firmware := firmware }, false)

/-- The suffix appended by the newline selector switch of
MainWindow::on_monitorEdit_returnPressed (QComboBox::currentIndex, an int
that can be -1): case 1 appends a line feed, case 2 a carriage return,
case 3 both, and the default case appends nothing. -/
def monitorSuffix (index : Int) : String :=
  if index = 1 then "\n"
  else if index = 2 then "\r"
  else if index = 3 then "\r\n"
  else ""

/-- MainWindow::on_monitorEdit_returnPressed from src/tyqt/main_window.cc.
Returns early when no board is current; otherwise captures the field text,
clears the field (second component is the new field text), appends the
newline-selector suffix, echoes the suffixed text to the serial document
when echo is checked, and always sends the suffixed text to the board. -/
def on_monitorEdit_returnPressed (current : Option Board) (text : String)
    (newlineIndex : Int) (echo : Bool) : Option Board × String :=
  match current with
  | none => (none, text)
  | some b =>
      let s := text ++ monitorSuffix newlineIndex
      let b1 := if echo then { b with serialDocument := b.serialDocument ++ s } else b
      (some { b1 with sent := b1.sent ++ [s] }, "")

/-- MainWindow::setBoardDefaults from src/tyqt/main_window.cc: sets the
board's "resetAfter" property to true, then selects row 0 of the board list
(second component true) when the current index is not valid and the board
count is nonzero. -/
def setBoardDefaults (b : Board) (currentIndexValid : Bool)
    (boardCount : Nat) : Board × Bool :=
  ({ b with resetAfter := true },
   !currentIndexValid && decide (boardCount ≠ 0))

/-- Claim C8: editing the firmware path to a non-empty text that does not
resolve to a canonical path reports an error and leaves the firmware
unchanged; a resolving text sets the firmware to the canonical path; an
empty text sets the firmware to the empty string; with no current board
nothing happens. -/
theorem firmware_path_edit_cases (canonical : String → String) (b : Board)
    (text : String) :
    (text ≠ "" → canonical text = "" →
      on_firmwarePath_editingFinished canonical (some b) text = (some b, true))
    ∧ (text ≠ "" → canonical text ≠ "" →
      on_firmwarePath_editingFinished canonical (some b) text
        = (some { b with firmware := canonical text }, false))
    ∧ on_firmwarePath_editingFinished canonical (some b) ""
        = (some { b with firmware := "" }, false)
    ∧ on_firmwarePath_editingFinished canonical none text = (none, false) := by
  refine ⟨?_, ?_, ?_, rfl⟩
  · intro ht hc
    simp [on_firmwarePath_editingFinished, ht, hc]
  · intro ht hc
    simp [on_firmwarePath_editingFinished, ht, hc]
  · simp [on_firmwarePath_editingFinished]

/-- Witness for claim C8 with a concrete canonicalization oracle resolving
only the path "good". -/
theorem firmware_path_edit_cases_witness :
    on_firmwarePath_editingFinished
        (fun s => if s = "good" then "/canon/good" else "")
        (some ⟨"old", false, "", []⟩) "bad"
      = (some ⟨"old", false, "", []⟩, true)
    ∧ on_firmwarePath_editingFinished
        (fun s => if s = "good" then "/canon/good" else "")
        (some ⟨"old", false, "", []⟩) "good"
      = (some ⟨"/canon/good", false, "", []⟩, false) :=
  ⟨(firmware_path_edit_cases (fun s => if s = "good" then "/canon/good" else "")
      ⟨"old", false, "", []⟩ "bad").1 (by decide) (by decide),
   (firmware_path_edit_cases (fun s => if s = "good" then "/canon/good" else "")
      ⟨"old", false, "", []⟩ "good").2.1 (by decide) (by decide)⟩

/-- Claim C9: on monitor line entry with a current board, the suffix is
determined solely by the newline selector index (1 gives a line feed, 2 a
carriage return, 3 both, anything else nothing), the input field is always
cleared, the suffixed text is echoed to the serial document exactly when
echo is checked, and the suffixed text is always sent to the board. -/
theorem monitor_edit_return_cases (b : Board) (text : String)
    (newlineIndex : Int) (echo : Bool) :
    on_monitorEdit_returnPressed (some b) text newlineIndex echo
      = (some { b with
                  serialDocument :=
                    if echo then b.serialDocument ++ (text ++ monitorSuffix newlineIndex)
                    else b.serialDocument,
                  sent := b.sent ++ [text ++ monitorSuffix newlineIndex] }, "")
    ∧ monitorSuffix 1 = "\n"
    ∧ monitorSuffix 2 = "\r"
    ∧ monitorSuffix 3 = "\r\n"
    ∧ (newlineIndex ≠ 1 → newlineIndex ≠ 2 → newlineIndex ≠ 3 →
        monitorSuffix newlineIndex = "") := by
  refine ⟨?_, rfl, rfl, rfl, ?_⟩
  · cases echo <;> rfl
  · intro h1 h2 h3
    simp [monitorSuffix, h1, h2, h3]

/-- Witness for claim C9 at index 0 with echo checked. -/
theorem monitor_edit_return_cases_witness :
    on_monitorEdit_returnPressed (some ⟨"", true, "doc", []⟩) "hi" 0 true
      = (some ⟨"", true, "dochi", ["hi"]⟩, "") := by
  have h := (monitor_edit_return_cases ⟨"", true, "doc", []⟩ "hi" 0 true).1
  have hs : monitorSuffix 0 = "" :=
    (monitor_edit_return_cases ⟨"", true, "doc", []⟩ "hi" 0 true).2.2.2.2
      (by decide) (by decide) (by decide)
  rw [h, hs]
  rfl

/-- Claim C10: for every newly added board the default handler sets the
board's "resetAfter" property to true (touching nothing else), and selects
row 0 in the board list exactly when no current index is valid and the
board count is nonzero. -/
theorem board_defaults_cases (b : Board) (currentIndexValid : Bool)
    (boardCount : Nat) :
    (setBoardDefaults b currentIndexValid boardCount).1
        = { b with resetAfter := true }
    ∧ ((setBoardDefaults b currentIndexValid boardCount).2 = true
        ↔ (currentIndexValid = false ∧ boardCount ≠ 0)) := by
  constructor
  · rfl
  · cases currentIndexValid <;> simp [setBoardDefaults]

/-- Witness for claim C10 on a concrete board with no valid current index
and two boards listed. -/
theorem board_defaults_cases_witness :
    (setBoardDefaults ⟨"f", false, "", []⟩ false 2).1 = ⟨"f", true, "", []⟩
    ∧ ((setBoardDefaults ⟨"f", false, "", []⟩ false 2).2 = true
        ↔ (false = false ∧ (2 : Nat) ≠ 0)) :=
  board_defaults_cases ⟨"f", false, "", []⟩ false 2
